import Mathlib

/-!
A verification development for `trlcd_libusb.c`: shallow embeddings of the
APNG frame scheduler, the frame-delay arithmetic, the frame-placement
clamping, the chunk-stream precompose control flow, the UI coordinate
mapping, the RGB565 viewport packing and the USB packet retry ladder,
together with theorems checking the specification's claims against them.

Machine integers are modelled as `Nat`/`Int` with explicit `% 2^w` where
C unsigned wraparound matters.  The external PNG codec (lodepng/stb) is
modelled as an oracle parameter, since it is an external collaborator of
the program, not part of this repository.
-/

namespace Trlcd

/-- Panel width in pixels (`#define W 240`). -/
def W : ℕ := 240

/-- Panel height in pixels (`#define H 320`). -/
def H : ℕ := 320

/-- `2^32`, the modulus of C `unsigned` (32-bit) arithmetic. -/
def U32 : ℕ := 4294967296

/-- `2^64`, the modulus of C `uint64_t` arithmetic. -/
def U64 : ℕ := 18446744073709551616

/-- `UINT32_MAX`. -/
def U32_MAX : ℕ := 4294967295

/-- The animation record produced by `apng_load_precompose` (struct
`ApngAnim`): play count as stored in the file (0 = infinite), frame count,
total duration in ms, per-frame delays in ms, and canvas dimensions.
Frame pixel buffers are not tracked: the claims checked here concern
control flow, sizes and timing, never decoded pixel contents. -/
structure ApngAnim where
  plays : ℕ
  num_frames : ℕ
  total_ms : ℕ
  delay_ms : List ℕ
  canvas_w : ℕ
  canvas_h : ℕ
  deriving DecidableEq

/-- `t = (uint64_t)((double)base_ms * (speed>0?speed:1.0))` from
`apng_pick_frame`, the C `double` modelled as a rational: nonpositive
speed is replaced by 1.0 and the product is truncated to an integer
(the product is nonnegative, so C's truncation toward zero is `⌊·⌋`). -/
def scaled_time (base_ms : ℕ) (speed : ℚ) : ℕ :=
  (⌊(base_ms : ℚ) * (if 0 < speed then speed else 1)⌋).toNat

/-- The effective play limit `loops` computed by `apng_pick_frame`: the
file's play count (0 meaning `UINT32_MAX`), overridden by the loop mode:
1 = force infinite, 2 = force once, 3 = force N (N = 0 meaning once; the
C cast `(unsigned)loop_N` reduces `loop_N` modulo `2^32`). -/
def effective_loops (A : ApngAnim) (loop_mode loop_N : ℤ) : ℕ :=
  let loops_file := if A.plays = 0 then U32_MAX else A.plays
  if loop_mode = 1 then U32_MAX
  else if loop_mode = 2 then 1
  else if loop_mode = 3 then (if loop_N = 0 then 1 else (loop_N % (U32 : ℤ)).toNat)
  else loops_file

/-- The delay-table scan of `apng_pick_frame`: starting from accumulator
`acc` and index `idx`, walk the delays until `in_cycle < acc + d`,
returning the break index and the accumulated sum of delays before it. -/
def pick_scan (delays : List ℕ) (in_cycle acc idx : ℕ) : ℕ × ℕ :=
  match delays with
  | [] => (idx, acc)
  | d :: rest =>
    if in_cycle < acc + d then (idx, acc) else pick_scan rest in_cycle (acc + d) (idx + 1)

/-- `apng_pick_frame` after the speed scaling: frame index and remaining
ms at scaled elapsed time `t` (src/trlcd_libusb.c lines 1017-1044).  The
delay-table read `A->delay_ms[idx]` is modelled with `getD`; the remaining
ms mirrors the C expression `(unsigned)((acc + delay_ms[idx]) - in_cycle)`,
whose addition is 32-bit and whose subtraction is 64-bit, truncated back
to 32 bits. -/
def apng_pick_at (A : ApngAnim) (t : ℕ) (loop_mode loop_N : ℤ) : ℕ × ℕ :=
  if A.num_frames = 0 then (0, 0)
  else if A.total_ms = 0 then (A.num_frames - 1, 0)
  else
    let loops := effective_loops A loop_mode loop_N
    let duration := A.total_ms
    let cycle := t / duration
    if loops ≤ cycle then (A.num_frames - 1, 0)
    else
      let in_cycle := t % duration
      let s := pick_scan (A.delay_ms.take A.num_frames) in_cycle 0 0
      let idx := if A.num_frames ≤ s.1 then A.num_frames - 1 else s.1
      let rem := ((s.2 + A.delay_ms.getD idx 0) % U32 + U64 - in_cycle % U64) % U64 % U32
      (idx, rem)

/-- `apng_pick_frame`: scale the elapsed ms by the speed, then pick. -/
def apng_pick_frame (A : ApngAnim) (base_ms : ℕ) (speed : ℚ) (loop_mode loop_N : ℤ) : ℕ × ℕ :=
  apng_pick_at A (scaled_time base_ms speed) loop_mode loop_N

/-- Parse-time clamping of a configured custom loop count in `load_layout`:
`if (apng_loop_N < 0) apng_loop_N = 0`. -/
def parse_loop_N (n : ℤ) : ℤ := if n < 0 then 0 else n

/-- A concrete two-frame animation (delays 100 ms and 200 ms, play count 1)
used to instantiate the scheduler theorems. -/
def animA : ApngAnim := ⟨1, 2, 300, [100, 200], 8, 8⟩

/-- Frame delay in ms from the raw fcTL fields (src lines 859-862, repeated
at 970-972): `delay_den` defaults to 100 when 0, `delay_num` to 1 when 0,
then `ms = (1000*num + den/2) / den`, floor-clamped to 10. -/
def apng_delay_ms (delay_num delay_den : ℕ) : ℕ :=
  let den := if delay_den = 0 then 100 else delay_den
  let num := if delay_num = 0 then 1 else delay_num
  let ms := (1000 * num + den / 2) / den
  if ms < 10 then 10 else ms

/-- Modelled from the claim's words: `round(1000 × num / den)`, the nearest
integer to the rational `1000·num/den`, halves rounding up: `⌊q + 1/2⌋`. -/
def round_delay_spec (num den : ℕ) : ℕ :=
  ⌊((1000 * num : ℕ) : ℚ) / (den : ℚ) + 1 / 2⌋₊

/-- The clamped blit width of the precompose blend (src lines 831-833,
repeated at 949-951): `maxw` starts as the frame width `w`; when
`(uint64_t)x + w` exceeds `canvas_w` it is replaced by the C `unsigned`
expression `canvas_w - x`, which wraps modulo 2^32 when `x > canvas_w`. -/
def clamp_maxw (canvas_w x w : ℕ) : ℕ :=
  if canvas_w < x + w then (canvas_w + U32 - x % U32) % U32 else w

/-- The clamped blit height, same computation as `clamp_maxw` on y/h. -/
def clamp_maxh (canvas_h y h : ℕ) : ℕ :=
  if canvas_h < y + h then (canvas_h + U32 - y % U32) % U32 else h

/-- The canvas pixel index written by blend iteration `(xi, yi)`:
`dst = canvas + 4*((size_t)dy*canvas_w + dx)` with `dy = y + yi`,
`dx = x + xi` (the model indexes pixels; the C code indexes bytes, a
factor of 4). -/
def blend_write_index (canvas_w x y xi yi : ℕ) : ℕ := (y + yi) * canvas_w + (x + xi)

/-- Every pixel write of the blend loop for placement `(x, y, w, h)` stays
inside the `canvas_w × canvas_h` pixel buffer. -/
def blend_writes_in_bounds (canvas_w canvas_h x y w h : ℕ) : Prop :=
  ∀ xi yi, xi < clamp_maxw canvas_w x w → yi < clamp_maxh canvas_h y h →
    blend_write_index canvas_w x y xi yi < canvas_w * canvas_h

/-- Text/overlay orientation (`UiOrient`). -/
inductive UiOrient | portrait | landscape
  deriving DecidableEq

/-- `map_ui_xy_fb` (src lines 545-554): map a logical UI point to canvas
coordinates.  Portrait is the identity; landscape rotates 90° clockwise
(`mx=yL; my=H-1-xL`) or counterclockwise (`mx=W-1-yL; my=xL`); an optional
180° flip maps `(mx,my)` to `(W-1-mx, H-1-my)`; finally the point is
translated by `((fbw-W)/2, (fbh-H)/2)` (C `int` division, i.e. `tdiv`). -/
def map_ui_xy_fb (xL yL : ℤ) (o : UiOrient) (ccw : Bool) (flip180 : Bool)
    (fbw fbh : ℤ) : ℤ × ℤ :=
  let m : ℤ × ℤ :=
    match o with
    | .portrait => (xL, yL)
    | .landscape => if ccw then ((W : ℤ) - 1 - yL, xL) else (yL, (H : ℤ) - 1 - xL)
  let m2 : ℤ × ℤ := if flip180 then ((W : ℤ) - 1 - m.1, (H : ℤ) - 1 - m.2) else m
  (Int.tdiv (fbw - (W : ℤ)) 2 + m2.1, Int.tdiv (fbh - (H : ℤ)) 2 + m2.2)

/-- Modelled from the claim's words: the mapping as a pipeline — portrait
keeps (x,y); landscape-clockwise sends (x,y) to (y, H-1-x);
landscape-counterclockwise sends (x,y) to (W-1-y, x); if the 180° flip is
enabled the intermediate (mx,my) becomes (W-1-mx, H-1-my); the result is
finally translated by the centering offset ((fbw-W)/2, (fbh-H)/2). -/
def map_ui_spec (xL yL : ℤ) (o : UiOrient) (ccw : Bool) (flip180 : Bool)
    (fbw fbh : ℤ) : ℤ × ℤ :=
  let rotated : ℤ × ℤ :=
    match o, ccw with
    | .portrait, _ => (xL, yL)
    | .landscape, false => (yL, (H : ℤ) - 1 - xL)
    | .landscape, true => ((W : ℤ) - 1 - yL, xL)
  let flipped : ℤ × ℤ :=
    if flip180 then ((W : ℤ) - 1 - rotated.1, (H : ℤ) - 1 - rotated.2) else rotated
  (flipped.1 + Int.tdiv (fbw - (W : ℤ)) 2, flipped.2 + Int.tdiv (fbh - (H : ℤ)) 2)

/-- Un-premultiply one channel (`viewport_to_rgb565`, src lines 1061-1063):
alpha 0 gives black, alpha 255 is the identity, otherwise
`(c*255 + (a>>1)) / a`, truncated by the C `uint8_t` cast. -/
def unpremul_channel (c a : ℕ) : ℕ :=
  if a = 0 then 0 else if a = 255 then c else (c * 255 + a / 2) / a % 256

/-- 5/6/5 packing (src line 1064):
`((r & 0xF8) << 8) | ((g & 0xFC) << 3) | (b >> 3)`. -/
def pack565 (r g b : ℕ) : ℕ :=
  ((r &&& 0xF8) <<< 8) ||| ((g &&& 0xFC) <<< 3) ||| (b >>> 3)

/-- One loop iteration of `viewport_to_rgb565` (src lines 1059-1065): the
canvas pixel at byte offset `4*((vy+y)*fbw + vx + x)` is un-premultiplied,
packed to 5/6/5 and emitted low byte first (little-endian).  The
framebuffer is a byte function; fetched bytes are reduced mod 256
(C `uint8_t`). -/
def viewport_pixel_bytes (fb : ℕ → ℕ) (fbw vx vy y x : ℕ) : List ℕ :=
  let base := 4 * ((vy + y) * fbw + vx + x)
  let pa := fb (base + 3) % 256
  let r := unpremul_channel (fb base % 256) pa
  let g := unpremul_channel (fb (base + 1) % 256) pa
  let b := unpremul_channel (fb (base + 2) % 256) pa
  let v := pack565 r g b
  [v % 256, v / 256]

/-- `viewport_to_rgb565` (src lines 1054-1068): walk the H×W viewport
window row-major, emitting two bytes per pixel. -/
def viewport_to_rgb565 (fb : ℕ → ℕ) (fbw vx vy : ℕ) : List ℕ :=
  (List.range H).flatMap (fun y =>
    (List.range W).flatMap (fun x => viewport_pixel_bytes fb fbw vx vy y x))

/-- Recovery actions of the per-packet retry ladder. -/
inductive UsbAction | clearHalt | resetReclaim | fullReopen
  deriving DecidableEq

/-- The transport oracle: `xferOk k` states whether the k-th transfer
attempt (an interrupt transfer, retried once as bulk on stall/timeout,
succeeding only if the full 512-byte packet is transferred) succeeds, and
`reopenRes k` is the `usb_full_reopen` return code (0 = success) when it
is invoked after attempt k. -/
structure UsbWorld where
  xferOk : ℕ → Bool
  reopenRes : ℕ → ℤ

/-- The attempt loop of `out512_retry` (src lines 1128-1135): four
attempts; after a failed attempt, attempt 0 clears the endpoint halt,
attempt 1 resets the device and re-claims, and any later attempt fully
closes and reopens the device, returning the reopen error code at once if
the reopen itself fails; when the loop ends the send surfaces
`LIBUSB_ERROR_IO` (-1).  The returned list is the sequence of recovery
actions performed. -/
def out512_go (w : UsbWorld) : ℕ → ℕ → List UsbAction → List UsbAction × ℤ
  | 0, _, tr => (tr, -1)
  | fuel + 1, attempt, tr =>
    if w.xferOk attempt then (tr, 0)
    else if attempt = 0 then out512_go w fuel (attempt + 1) (tr ++ [.clearHalt])
    else if attempt = 1 then out512_go w fuel (attempt + 1) (tr ++ [.resetReclaim])
    else if w.reopenRes attempt = 0 then out512_go w fuel (attempt + 1) (tr ++ [.fullReopen])
    else (tr ++ [.fullReopen], w.reopenRes attempt)

/-- `out512_retry`: the 4-attempt send loop, starting at attempt 0 with an
empty recovery trace. -/
def out512_retry (w : UsbWorld) : List UsbAction × ℤ := out512_go w 4 0 []

/-- A transport oracle whose first transfer attempt fails and whose second
(after clear-halt) succeeds. -/
def usbW : UsbWorld := ⟨fun k => decide (k = 1), fun _ => 0⟩

/-- The PNG signature bytes. -/
def png_sig : List ℕ := [137, 80, 78, 71, 13, 10, 26, 10]

/-- Big-endian 32-bit read of the first four bytes (`be32r`); bytes are
reduced mod 256 (C `unsigned char`). -/
def be32r (l : List ℕ) : ℕ :=
  (l.getD 0 0 % 256) * 16777216 + (l.getD 1 0 % 256) * 65536 +
    (l.getD 2 0 % 256) * 256 + l.getD 3 0 % 256

/-- Big-endian 32-bit write (`be32w`): the four bytes of `v`, high first. -/
def be32w (v : ℕ) : List ℕ :=
  [v / 16777216 % 256, v / 65536 % 256, v / 256 % 256, v % 256]

/-- One CRC32 table entry of `png_crc32` (`0xEDB88320 = 3988292384`):
eight steps of the reflected polynomial division. -/
def crc_entry (n : ℕ) : ℕ :=
  (List.range 8).foldl (fun c _ => if c % 2 = 1 then 3988292384 ^^^ (c / 2) else c / 2) n

/-- `png_crc32` over a byte list: classic table-driven CRC32, the table
entry computed on the fly. -/
def png_crc32 (l : List ℕ) : ℕ :=
  (l.foldl (fun c b => crc_entry ((c ^^^ b % 256) % 256) ^^^ (c / 256)) 4294967295) ^^^
    4294967295

/-- `write_chunk`: big-endian length, type, data, then the CRC computed
over type + data. -/
def write_chunk (ctype cdata : List ℕ) : List ℕ :=
  be32w cdata.length ++ ctype ++ cdata ++ be32w (png_crc32 (ctype ++ cdata))

/-- Raw chunk framing (`next_chunk`): a chunk needs 12 bytes of overhead
plus its declared data length; the raw record keeps length + type + data +
CRC.  The loop repeats until the remaining bytes cannot frame a chunk; the
fuel `bytes.length` always suffices because every framed chunk consumes at
least 12 bytes. -/
def split_chunks_fuel : ℕ → List ℕ → List (List ℕ)
  | 0, _ => []
  | fuel + 1, bytes =>
    if bytes.length < 12 then []
    else
      let len := be32r (bytes.take 4)
      if bytes.length < 12 + len then []
      else bytes.take (12 + len) :: split_chunks_fuel fuel (bytes.drop (12 + len))

/-- All raw chunks of a byte stream, in order. -/
def split_chunks (bytes : List ℕ) : List (List ℕ) := split_chunks_fuel bytes.length bytes

/-- `chunk_datalen`: the declared data length of a raw chunk. -/
def chunk_dlen (ch : List ℕ) : ℕ := be32r (ch.take 4)

/-- `chunk_type_ptr`: the four type bytes of a raw chunk. -/
def chunk_type (ch : List ℕ) : List ℕ := (ch.drop 4).take 4

/-- `chunk_dataptr`: the data bytes of a raw chunk. -/
def chunk_data (ch : List ℕ) : List ℕ := (ch.drop 8).take (chunk_dlen ch)

/-- ASCII chunk type names. -/
def tIHDR : List ℕ := [73, 72, 68, 82]

def tacTL : List ℕ := [97, 99, 84, 76]

def tfcTL : List ℕ := [102, 99, 84, 76]

def tfdAT : List ℕ := [102, 100, 65, 84]

def tIDAT : List ℕ := [73, 68, 65, 84]

def tIEND : List ℕ := [73, 69, 78, 68]

/-- The in-progress frame of the precompose loop (struct `FrameBuild`):
declared size and placement, raw delay fields, dispose and blend
operators, and the accumulated image data bytes. -/
structure FrameBuild where
  w : ℕ
  h : ℕ
  x : ℕ
  y : ℕ
  delay_num : ℕ
  delay_den : ℕ
  dispose_op : ℕ
  blend_op : ℕ
  idata : List ℕ
  deriving DecidableEq

/-- The running state of the chunk loop of `apng_load_precompose`,
mirroring the C locals.  The composition canvas pixels are not tracked
(no claim settled on this state concerns pixel contents; the blend loop's
write bounds are modelled by `clamp_maxw`/`clamp_maxh`/
`blend_write_index`). -/
structure PState where
  ihdr_set : Bool
  ihdr_base : List ℕ
  canvas_w : ℕ
  canvas_h : ℕ
  saw_acTL : Bool
  acTL_frames : ℕ
  acTL_plays : ℕ
  saw_IDAT_or_fd : Bool
  header_bytes : List ℕ
  cur : Option FrameBuild
  delays : List ℕ
  total_ms : ℕ
  deriving DecidableEq

/-- The loop state before the first chunk. -/
def pinit : PState := ⟨false, [], 0, 0, false, 0, 0, false, [], none, [], 0⟩

/-- The external PNG codec as an oracle: a complete in-memory PNG either
decodes to a width and height (RGBA pixels are irrelevant to the claims
settled here) or fails. -/
def Decoder : Type := List ℕ → Option (ℕ × ℕ)

/-- The standalone single-frame PNG built for decoding: signature, IHDR
with the frame's own size, the saved pre-IDAT ancillary chunks verbatim,
the accumulated image data as one IDAT, and IEND. -/
def build_frame_png (ihdr_base : List ℕ) (cur : FrameBuild) (header_bytes : List ℕ) :
    List ℕ :=
  png_sig ++ write_chunk tIHDR (be32w cur.w ++ be32w cur.h ++ ihdr_base.drop 8) ++
    header_bytes ++ write_chunk tIDAT cur.idata ++ write_chunk tIEND []

/-- Finalizing one accumulated frame (src lines 778-882, textually repeated
at 920-983): build the standalone PNG, decode it, require the decoded size
to equal the declared size, then append the frame and its delay.  `none`
is the `goto fail` path. -/
def finalize_frame (dec : Decoder) (st : PState) (cur : FrameBuild) : Option PState :=
  match dec (build_frame_png st.ihdr_base cur st.header_bytes) with
  | none => none
  | some (fw, fh) =>
    if fw ≠ cur.w ∨ fh ≠ cur.h then none
    else
      let ms := apng_delay_ms cur.delay_num cur.delay_den
      some { st with delays := st.delays ++ [ms],
                     total_ms := (st.total_ms + ms) % U32,
                     cur := none }

/-- The fcTL-path finalization of any previous frame (src lines 774-884):
no open frame is a no-op; an open frame with empty data is dropped;
otherwise the frame is finalized. -/
def finalize_cur (dec : Decoder) (st : PState) : Option PState :=
  match st.cur with
  | none => some st
  | some cur =>
    if cur.idata = [] then some { st with cur := none }
    else finalize_frame dec st cur

/-- One chunk dispatch outcome: parse failure (`goto fail`), continue with
the next chunk, or break out of the loop (IEND). -/
inductive StepRes
  | sfail
  | scont (st : PState)
  | sbrk (st : PState)
  deriving DecidableEq

/-- One iteration of the chunk loop of `apng_load_precompose` (src lines
751-994), dispatching on the chunk type: IHDR records the canvas size;
any other chunk before IHDR fails; acTL records frame and play counts;
fcTL finalizes any open frame, then rejects a zero declared dimension and
opens the next frame; fdAT strips its sequence number and appends to the
open frame (stray fdAT is ignored); IDAT appends, synthesizing a default
full-canvas frame if none is open; IEND finalizes any open nonempty frame
and breaks; all remaining chunk types are collected verbatim while no
image data has been seen. -/
def pstep (dec : Decoder) (st : PState) (ch : List ℕ) : StepRes :=
  let ty := chunk_type ch
  let data := chunk_data ch
  let dlen := chunk_dlen ch
  if ty = tIHDR then
    if dlen ≠ 13 then .sfail
    else .scont { st with ihdr_set := true, ihdr_base := data,
                          canvas_w := be32r (data.take 4),
                          canvas_h := be32r ((data.drop 4).take 4) }
  else if st.ihdr_set = false then .sfail
  else if ty = tacTL then
    if dlen ≠ 8 then .sfail
    else .scont { st with saw_acTL := true,
                          acTL_frames := be32r (data.take 4),
                          acTL_plays := be32r ((data.drop 4).take 4) }
  else if ty = tfcTL then
    if dlen ≠ 26 then .sfail
    else
      match finalize_cur dec st with
      | none => .sfail
      | some st1 =>
        let w := be32r ((data.drop 4).take 4)
        let h := be32r ((data.drop 8).take 4)
        let x := be32r ((data.drop 12).take 4)
        let y := be32r ((data.drop 16).take 4)
        let dnum := (data.getD 20 0 % 256) * 256 + data.getD 21 0 % 256
        let dden := (data.getD 22 0 % 256) * 256 + data.getD 23 0 % 256
        let dop := data.getD 24 0 % 256
        let bop := data.getD 25 0 % 256
        if w = 0 ∨ h = 0 then .sfail
        else .scont { st1 with cur := some ⟨w, h, x, y, dnum, dden, dop, bop, []⟩ }
  else if ty = tfdAT then
    match st.cur with
    | none => .scont st
    | some cur =>
      if dlen < 4 then .sfail
      else .scont { st with cur := some { cur with idata := cur.idata ++ data.drop 4 },
                            saw_IDAT_or_fd := true }
  else if ty = tIDAT then
    match st.cur with
    | some cur =>
      .scont { st with cur := some { cur with idata := cur.idata ++ data },
                       saw_IDAT_or_fd := true }
    | none =>
      .scont { st with cur := some ⟨st.canvas_w, st.canvas_h, 0, 0, 10, 100, 0, 0, data⟩,
                       saw_IDAT_or_fd := true }
  else if ty = tIEND then
    match st.cur with
    | none => .sbrk st
    | some cur =>
      if cur.idata = [] then .sbrk st
      else
        match finalize_frame dec st cur with
        | none => .sfail
        | some st1 => .sbrk st1
  else if st.saw_IDAT_or_fd = false then
    .scont { st with header_bytes := st.header_bytes ++ ch }
  else .scont st

/-- The chunk loop: process chunks until failure, break, or exhaustion. -/
def apng_loop (dec : Decoder) : PState → List (List ℕ) → Option PState
  | st, [] => some st
  | st, ch :: rest =>
    match pstep dec st ch with
    | .sfail => none
    | .sbrk st1 => some st1
    | .scont st1 => apng_loop dec st1 rest

/-- The result of `apng_load_precompose`: -1 (parse failure), 1 ("not
animated": the caller decodes statically), or 0 with the animation. -/
inductive ApngResult
  | pfail
  | notAnimated
  | anim (A : ApngAnim)
  deriving DecidableEq

/-- `apng_load_precompose` (src lines 718-1014) over an in-memory byte
stream and a PNG codec oracle: check the minimum file size (33) and the
signature, split the chunk stream, run the chunk loop, and classify: a
failed loop is a parse failure; a run with no animation-control chunk or
zero frames is "not animated"; otherwise the animation is returned, its
frame count and delay table in lockstep and its play count from acTL. -/
def apng_load_precompose (dec : Decoder) (bytes : List ℕ) : ApngResult :=
  if bytes.length < 33 then .pfail
  else if bytes.take 8 ≠ png_sig then .pfail
  else
    match apng_loop dec pinit (split_chunks (bytes.drop 8)) with
    | none => .pfail
    | some st =>
      if st.saw_acTL = false ∨ st.delays.length = 0 then .notAnimated
      else .anim ⟨st.acTL_plays, st.delays.length, st.total_ms, st.delays,
                  st.canvas_w, st.canvas_h⟩

/-- The caller's classification of the precompose status (`main`, src
lines 1174-1189): use the animation on success, decode the static PNG on
"not animated", report a fatal load error on parse failure. -/
inductive BgAction | useAnimation | staticFallback | fatalError
  deriving DecidableEq

/-- `main`'s branch on the precompose status. -/
def bg_action : ApngResult → BgAction
  | .anim _ => .useAnimation
  | .notAnimated => .staticFallback
  | .pfail => .fatalError

/-- A frame-control chunk declaring a zero width or height. -/
def zero_fcTL_chunk (ch : List ℕ) : Prop :=
  chunk_type ch = tfcTL ∧ chunk_dlen ch = 26 ∧
    (be32r (((chunk_data ch).drop 4).take 4) = 0 ∨
     be32r (((chunk_data ch).drop 8).take 4) = 0)

instance (ch : List ℕ) : Decidable (zero_fcTL_chunk ch) := by
  unfold zero_fcTL_chunk
  infer_instance

/-- Some frame-control chunk with a zero dimension occurs among the chunks
before any end marker, i.e. among chunks the loop can reach. -/
def zero_fcTL_before_IEND (chunks : List (List ℕ)) : Prop :=
  ∃ ch ∈ chunks.takeWhile (fun c => decide (chunk_type c ≠ tIEND)), zero_fcTL_chunk ch

instance (chunks : List (List ℕ)) : Decidable (zero_fcTL_before_IEND chunks) := by
  unfold zero_fcTL_before_IEND
  infer_instance

/-- A conforming decoder oracle for concrete runs: it returns exactly the
dimensions declared in the synthetic PNG's IHDR (stream bytes 16..23), as
every conforming PNG codec does on a valid stream. -/
def dec_ihdr : Decoder := fun png =>
  some (be32r ((png.drop 16).take 4), be32r ((png.drop 20).take 4))

/-- A decoder oracle that always fails (never consulted in runs that carry
no image data). -/
def dec_none : Decoder := fun _ => none

/-- A raw chunk with the given type and data; the four CRC bytes are never
validated by the parser and are left zero. -/
def mk_chunk (ctype cdata : List ℕ) : List ℕ :=
  be32w cdata.length ++ ctype ++ cdata ++ [0, 0, 0, 0]

/-- An IHDR payload declaring a 1×1 RGBA8 image. -/
def ihdr_1x1 : List ℕ := [0, 0, 0, 1, 0, 0, 0, 1, 8, 6, 0, 0, 0]

/-- An fcTL payload (26 bytes) declaring width 0: sequence 0, w = 0,
h = 1, x = 0, y = 0, delay 1/10, dispose 0, blend 0. -/
def fcTL_zero_w : List ℕ :=
  [0, 0, 0, 0, 0, 0, 0, 0, 0, 0, 0, 1, 0, 0, 0, 0, 0, 0, 0, 0, 0, 1, 0, 10, 0, 0]

/-- Stream for the C4 amended claim's witness: signature, IHDR, then an
fcTL declaring width 0. -/
def bytesC4w : List ℕ := png_sig ++ mk_chunk tIHDR ihdr_1x1 ++ mk_chunk tfcTL fcTL_zero_w

/-- Stream for the C4 counterexample: a complete animated PNG (IHDR, acTL,
IDAT, IEND) followed, after the end marker, by an fcTL declaring width 0. -/
def bytesC4cx : List ℕ :=
  png_sig ++ mk_chunk tIHDR ihdr_1x1 ++ mk_chunk tacTL [0, 0, 0, 1, 0, 0, 0, 1] ++
    mk_chunk tIDAT [1, 2, 3] ++ mk_chunk tIEND [] ++ mk_chunk tfcTL fcTL_zero_w

/-- Stream for the C5 witness: signature and a bare IHDR, no
animation-control chunk. -/
def bytesC5 : List ℕ := png_sig ++ mk_chunk tIHDR ihdr_1x1

end Trlcd

namespace Trlcd

theorem scaled_time_one (b : ℕ) : scaled_time b 1 = b := by
  simp [scaled_time]

/-- C1: frame selection is periodic and then freezes: for an animation with
total duration T > 0 and effective play limit N > 0, the scheduler's result
at elapsed time k·T + ε (k < N, 0 ≤ ε < T) equals its result at ε, and at
every elapsed time ≥ N·T it returns the final frame index `num_frames - 1`. -/
theorem C1_scheduler_periodic_then_frozen (A : ApngAnim) (loop_mode loop_N : ℤ)
    (hT : 0 < A.total_ms) (hN : 0 < effective_loops A loop_mode loop_N) :
    (∀ k ε, k < effective_loops A loop_mode loop_N → ε < A.total_ms →
      apng_pick_frame A (k * A.total_ms + ε) 1 loop_mode loop_N =
        apng_pick_frame A ε 1 loop_mode loop_N) ∧
    (∀ t, effective_loops A loop_mode loop_N * A.total_ms ≤ t →
      (apng_pick_frame A t 1 loop_mode loop_N).1 = A.num_frames - 1) := by
  have hT' : A.total_ms ≠ 0 := Nat.pos_iff_ne_zero.mp hT
  constructor
  · intro k ε hk hε
    have hdiv : (k * A.total_ms + ε) / A.total_ms = k := by
      rw [Nat.add_comm, Nat.mul_comm, Nat.add_mul_div_left _ _ hT,
        Nat.div_eq_of_lt hε, Nat.zero_add]
    have hmod : (k * A.total_ms + ε) % A.total_ms = ε := by
      rw [Nat.add_comm, Nat.mul_comm, Nat.add_mul_mod_self_left, Nat.mod_eq_of_lt hε]
    simp only [apng_pick_frame, scaled_time_one, apng_pick_at, hdiv, hmod,
      Nat.div_eq_of_lt hε, Nat.mod_eq_of_lt hε, hT', if_false,
      Nat.not_le.mpr hk, Nat.not_le.mpr hN]
  · intro t ht
    by_cases h0 : A.num_frames = 0
    · simp [apng_pick_frame, apng_pick_at, h0]
    · have hcyc : effective_loops A loop_mode loop_N ≤ t / A.total_ms :=
        (Nat.le_div_iff_mul_le hT).mpr ht
      simp [apng_pick_frame, scaled_time_one, apng_pick_at, h0, hT', hcyc]

/-- C1 witness: for the two-frame 300 ms animation with play count 1,
elapsed 1000 ms (past one full cycle) selects the final frame, index 1. -/
theorem C1_witness : (apng_pick_frame animA 1000 1 0 0).1 = 1 :=
  (C1_scheduler_periodic_then_frozen animA 0 0 (by decide) (by decide)).2 1000 (by decide)

/-- C9: for every animation with at least one frame, the frame scheduler is
total and the returned index is strictly below `num_frames` for every
elapsed time, speed, loop mode and loop N, even with total duration 0; and
a nonpositive speed is treated exactly as speed 1.0.  Hence the caller's
`frame_rgba[idx]` lookup is always in bounds. -/
theorem C9_pick_frame_index_in_bounds (A : ApngAnim) (base_ms : ℕ) (speed : ℚ)
    (loop_mode loop_N : ℤ) (h : 1 ≤ A.num_frames) :
    (apng_pick_frame A base_ms speed loop_mode loop_N).1 < A.num_frames ∧
    (speed ≤ 0 →
      apng_pick_frame A base_ms speed loop_mode loop_N =
        apng_pick_frame A base_ms 1 loop_mode loop_N) := by
  constructor
  · simp only [apng_pick_frame, apng_pick_at]
    split_ifs <;> simp_all <;> omega
  · intro hsp
    have hs : scaled_time base_ms speed = scaled_time base_ms 1 := by
      unfold scaled_time
      rw [if_neg (not_lt.mpr hsp), if_pos one_pos]
    simp [apng_pick_frame, hs]

/-- C9 witness: at a large elapsed time, negative speed and an arbitrary
loop mode, the index picked for the two-frame animation stays below 2. -/
theorem C9_witness : (apng_pick_frame animA 987654 (-3) 5 (-7)).1 < animA.num_frames :=
  (C9_pick_frame_index_in_bounds animA 987654 (-3) 5 (-7) (by decide)).1

/-- C10: the forced-N loop override with N = 0 is play-once: scheduling with
loop mode 3 (forced N) and N = 0 returns exactly the same result as
scheduling with forced-once (mode 2) and as forced-N with limit 1; and
`load_layout` clamps a negative configured N to 0 at parse time. -/
theorem C10_forced_zero_is_once (A : ApngAnim) (base_ms : ℕ) (speed : ℚ) :
    (apng_pick_frame A base_ms speed 3 0 = apng_pick_frame A base_ms speed 2 0 ∧
     apng_pick_frame A base_ms speed 3 0 = apng_pick_frame A base_ms speed 3 1) ∧
    (∀ n : ℤ, n < 0 → parse_loop_N n = 0) := by
  have e1 : effective_loops A 3 0 = 1 := by norm_num [effective_loops]
  have e2 : effective_loops A 2 0 = 1 := by norm_num [effective_loops]
  have e3 : effective_loops A 3 1 = 1 := by norm_num [effective_loops, U32]
  refine ⟨⟨?_, ?_⟩, ?_⟩
  · simp only [apng_pick_frame, apng_pick_at, e1, e2]
  · simp only [apng_pick_frame, apng_pick_at, e1, e3]
  · intro n hn
    simp [parse_loop_N, hn]

/-- C10 witness: at 350 ms the forced-N = 0 schedule of the two-frame
animation coincides with the forced-once schedule. -/
theorem C10_witness :
    apng_pick_frame animA 350 1 3 0 = apng_pick_frame animA 350 1 2 0 :=
  (C10_forced_zero_is_once animA 350 1).1.1

theorem nat_round_div_eq (a d : ℕ) (hd : 0 < d) :
    (a + d / 2) / d = (2 * a + d) / (2 * d) := by
  have hfloor : (a + d / 2) / d * d ≤ a + d / 2 := Nat.div_mul_le_self _ _
  have hceil : a + d / 2 < ((a + d / 2) / d + 1) * d := by
    have h1 := Nat.div_add_mod (a + d / 2) d
    have h2 : (a + d / 2) % d < d := Nat.mod_lt _ hd
    calc a + d / 2 = d * ((a + d / 2) / d) + (a + d / 2) % d := h1.symm
      _ < d * ((a + d / 2) / d) + d := by omega
      _ = ((a + d / 2) / d + 1) * d := by ring
  symm
  apply Nat.div_eq_of_lt_le
  · calc (a + d / 2) / d * (2 * d) = 2 * ((a + d / 2) / d * d) := by ring
      _ ≤ 2 * (a + d / 2) := Nat.mul_le_mul_left 2 hfloor
      _ ≤ 2 * a + d := by omega
  · calc 2 * a + d < 2 * (a + d / 2 + 1) := by omega
      _ ≤ 2 * (((a + d / 2) / d + 1) * d) := Nat.mul_le_mul_left 2 (Nat.succ_le_of_lt hceil)
      _ = ((a + d / 2) / d + 1) * (2 * d) := by ring

theorem floor_half_eq (a d : ℕ) (hd : 0 < d) :
    ⌊((a : ℕ) : ℚ) / (d : ℚ) + 1 / 2⌋₊ = (a + d / 2) / d := by
  have hd0 : (d : ℚ) ≠ 0 := by positivity
  have hq : ((a : ℕ) : ℚ) / (d : ℚ) + 1 / 2 = ((2 * a + d : ℕ) : ℚ) / ((2 * d : ℕ) : ℚ) := by
    push_cast
    field_simp
    ring
  rw [hq, Nat.floor_div_nat, Nat.floor_natCast, nat_round_div_eq a d hd]

/-- C3: the stored frame delay equals `round(1000 × num / den)` ms, where
`den` is replaced by 100 when `delay_den = 0` and `num` by 1 when
`delay_num = 0`, and the result is raised to 10 when below 10. -/
theorem C3_delay_is_rounded (delay_num delay_den : ℕ) :
    apng_delay_ms delay_num delay_den =
      (if round_delay_spec (if delay_num = 0 then 1 else delay_num)
            (if delay_den = 0 then 100 else delay_den) < 10 then 10
       else round_delay_spec (if delay_num = 0 then 1 else delay_num)
            (if delay_den = 0 then 100 else delay_den)) := by
  have hd : 0 < (if delay_den = 0 then 100 else delay_den) := by split <;> omega
  rw [round_delay_spec, floor_half_eq _ _ hd]
  rfl

/-- C2: the claim fails on the code: with a 2×2 canvas and a 1×1 frame
placed at x = 5, y = 0 (an fcTL offset beyond the canvas width, which
passes every parser check), the clamp `maxw = canvas_w - cur.x` wraps
around in C unsigned arithmetic, the blend loop therefore performs its
iteration (0,0), and that iteration writes pixel index 5 of a 4-pixel
canvas — an out-of-bounds write. -/
theorem C2_clamp_wraps_out_of_bounds :
    0 < clamp_maxw 2 5 1 ∧ 0 < clamp_maxh 2 0 1 ∧
    blend_write_index 2 5 0 0 0 = 5 ∧ 2 * 2 ≤ blend_write_index 2 5 0 0 0 ∧
    ¬ blend_writes_in_bounds 2 2 5 0 1 1 := by
  refine ⟨by decide, by decide, by decide, by decide, fun hcl => ?_⟩
  exact absurd (hcl 0 0 (by decide) (by decide)) (by decide)

/-- C6: the UI coordinate mapping agrees pointwise with the claim's
pipeline: orientation rotation, then the optional 180° flip, then the
centering translation. -/
theorem C6_ui_mapping_pipeline (xL yL : ℤ) (o : UiOrient) (ccw flip180 : Bool)
    (fbw fbh : ℤ) :
    map_ui_xy_fb xL yL o ccw flip180 fbw fbh =
      map_ui_spec xL yL o ccw flip180 fbw fbh := by
  cases o <;> cases ccw <;> cases flip180 <;>
    simp [map_ui_xy_fb, map_ui_spec, Prod.ext_iff] <;>
    constructor <;> ring

theorem range_flatMap_length (f : ℕ → List ℕ) (c : ℕ) (hf : ∀ i, (f i).length = c)
    (n : ℕ) : ((List.range n).flatMap f).length = c * n := by
  induction n with
  | zero => simp
  | succ m ih =>
    rw [List.range_succ, List.flatMap_append, List.length_append, ih]
    simp [hf m]
    ring

theorem range_flatMap_get (f : ℕ → List ℕ) (c : ℕ) (hf : ∀ i, (f i).length = c)
    (n i j : ℕ) (hi : i < n) (hj : j < c) :
    ((List.range n).flatMap f).get? (c * i + j) = (f i).get? j := by
  induction n with
  | zero => omega
  | succ m ih =>
    rw [List.range_succ, List.flatMap_append]
    by_cases him : i < m
    · rw [List.get?_append]
      · exact ih him
      · rw [range_flatMap_length f c hf m]
        have hexp : c * (i + 1) = c * i + c := by ring
        have hle : c * (i + 1) ≤ c * m := Nat.mul_le_mul_left c (Nat.succ_le_of_lt him)
        omega
    · have hi' : i = m := by omega
      subst hi'
      rw [List.get?_append_right]
      · rw [range_flatMap_length f c hf i]
        simp [Nat.add_sub_cancel_left]
      · rw [range_flatMap_length f c hf i]
        omega

theorem range_flatMap_flatMap_get (g : ℕ → ℕ → List ℕ) (c : ℕ)
    (hg : ∀ y x, (g y x).length = c) (nW nH x y j : ℕ)
    (hx : x < nW) (hy : y < nH) (hj : j < c) :
    ((List.range nH).flatMap
        (fun yy => (List.range nW).flatMap (fun xx => g yy xx))).get?
      (c * (y * nW + x) + j) = (g y x).get? j := by
  have hlen : ∀ yy, ((List.range nW).flatMap (fun xx => g yy xx)).length = c * nW :=
    fun yy => range_flatMap_length _ _ (hg yy) nW
  have h1 : c * (y * nW + x) + j = (c * nW) * y + (c * x + j) := by ring
  have h2 : c * x + j < c * nW := by
    have hexp : c * (x + 1) = c * x + c := by ring
    have hle : c * (x + 1) ≤ c * nW := Nat.mul_le_mul_left c (Nat.succ_le_of_lt hx)
    omega
  rw [h1, range_flatMap_get _ _ hlen nH y _ hy h2,
    range_flatMap_get _ _ (hg y) nW x j hx hj]

/-- C7: viewport pixel packing: the output byte stream is row-major, two
bytes per pixel, little-endian — for every pixel (x, y) of the W×H window,
output byte 2·(y·W+x) is the low byte and 2·(y·W+x)+1 the high byte of the
5/6/5 packing of the un-premultiplied canvas pixel fetched at byte offset
4·((vy+y)·fbw + vx + x); and the premultiplied RGBA pixel (255,0,0,255)
packs to 0xF800. -/
theorem C7_viewport_unpremultiply_pack :
    (∀ (fb : ℕ → ℕ) (fbw vx vy x y : ℕ), x < W → y < H →
      (viewport_to_rgb565 fb fbw vx vy).get? (2 * (y * W + x)) =
        some (pack565
          (unpremul_channel (fb (4 * ((vy + y) * fbw + vx + x)) % 256)
            (fb (4 * ((vy + y) * fbw + vx + x) + 3) % 256))
          (unpremul_channel (fb (4 * ((vy + y) * fbw + vx + x) + 1) % 256)
            (fb (4 * ((vy + y) * fbw + vx + x) + 3) % 256))
          (unpremul_channel (fb (4 * ((vy + y) * fbw + vx + x) + 2) % 256)
            (fb (4 * ((vy + y) * fbw + vx + x) + 3) % 256)) % 256) ∧
      (viewport_to_rgb565 fb fbw vx vy).get? (2 * (y * W + x) + 1) =
        some (pack565
          (unpremul_channel (fb (4 * ((vy + y) * fbw + vx + x)) % 256)
            (fb (4 * ((vy + y) * fbw + vx + x) + 3) % 256))
          (unpremul_channel (fb (4 * ((vy + y) * fbw + vx + x) + 1) % 256)
            (fb (4 * ((vy + y) * fbw + vx + x) + 3) % 256))
          (unpremul_channel (fb (4 * ((vy + y) * fbw + vx + x) + 2) % 256)
            (fb (4 * ((vy + y) * fbw + vx + x) + 3) % 256)) / 256)) ∧
    pack565 (unpremul_channel 255 255) (unpremul_channel 0 255)
        (unpremul_channel 0 255) = 0xF800 := by
  constructor
  · intro fb fbw vx vy x y hx hy
    constructor
    · have h0 : 2 * (y * W + x) = 2 * (y * W + x) + 0 := by omega
      rw [viewport_to_rgb565, h0,
        range_flatMap_flatMap_get (viewport_pixel_bytes fb fbw vx vy) 2
          (fun yy xx => rfl) W H x y 0 hx hy (by omega)]
      rfl
    · rw [viewport_to_rgb565,
        range_flatMap_flatMap_get (viewport_pixel_bytes fb fbw vx vy) 2
          (fun yy xx => rfl) W H x y 1 hx hy (by omega)]
      rfl
  · decide

/-- C7 witness: the packing formula instantiated at the all-zero
framebuffer and pixel (0,0). -/
theorem C7_witness :
    (viewport_to_rgb565 (fun _ => 0) 240 0 0).get? 0 =
      some (pack565 (unpremul_channel 0 0) (unpremul_channel 0 0)
        (unpremul_channel 0 0) % 256) :=
  (C7_viewport_unpremultiply_pack.1 (fun _ => 0) 240 0 0 0 0 (by decide) (by decide)).1

/-- C8: the per-packet send follows the escalating recovery ladder in
order: immediate success sends nothing further; a failure at attempt 0 is
followed by clear-halt and a retry; at attempt 1 by reset/re-claim and a
retry; at attempt 2 by a full reopen and a retry; and when every attempt
fails the send surfaces a transport error (the loop performs one more
reopen after the final failed attempt before surfacing `LIBUSB_ERROR_IO`).
In particular, when the first attempt fails and the retry after clear-halt
succeeds, the send returns success and neither the reset step nor the
reopen step is ever invoked. -/
theorem C8_retry_ladder (w : UsbWorld) :
    (w.xferOk 0 = true → out512_retry w = ([], 0)) ∧
    (w.xferOk 0 = false → w.xferOk 1 = true →
      out512_retry w = ([.clearHalt], 0)) ∧
    (w.xferOk 0 = false → w.xferOk 1 = false → w.xferOk 2 = true →
      out512_retry w = ([.clearHalt, .resetReclaim], 0)) ∧
    (w.xferOk 0 = false → w.xferOk 1 = false → w.xferOk 2 = false →
      w.reopenRes 2 = 0 → w.xferOk 3 = true →
      out512_retry w = ([.clearHalt, .resetReclaim, .fullReopen], 0)) ∧
    (w.xferOk 0 = false → w.xferOk 1 = false → w.xferOk 2 = false →
      w.reopenRes 2 = 0 → w.xferOk 3 = false → w.reopenRes 3 = 0 →
      out512_retry w = ([.clearHalt, .resetReclaim, .fullReopen, .fullReopen], -1)) := by
  refine ⟨?_, ?_, ?_, ?_, ?_⟩ <;>
    intros <;>
    simp_all [out512_retry, out512_go]

/-- C8 witness: with an oracle failing once then succeeding after
clear-halt, the send succeeds having performed exactly the clear-halt
recovery. -/
theorem C8_witness : out512_retry usbW = ([.clearHalt], 0) :=
  (C8_retry_ladder usbW).2.1 (by decide) (by decide)

theorem pstep_zero_fcTL_fails (dec : Decoder) (st : PState) (ch : List ℕ)
    (hch : zero_fcTL_chunk ch) : pstep dec st ch = .sfail := by
  obtain ⟨hty, hdlen, hwz⟩ := hch
  by_cases hset : st.ihdr_set = false
  · simp [pstep, hty, hdlen, hset]
  · cases hfin : finalize_cur dec st with
    | none => simp [pstep, hty, hdlen, hset, hfin]
    | some st1 => simp [pstep, hty, hdlen, hset, hfin, hwz]

theorem pstep_sbrk_is_IEND (dec : Decoder) (st : PState) (ch : List ℕ) (st1 : PState)
    (h : pstep dec st ch = .sbrk st1) : chunk_type ch = tIEND := by
  by_contra hne
  simp only [pstep] at h
  split_ifs at h <;> (try split at h) <;> (try split at h) <;> simp_all

theorem apng_loop_zero_fcTL_none (dec : Decoder) (chunks : List (List ℕ)) :
    ∀ st, zero_fcTL_before_IEND chunks → apng_loop dec st chunks = none := by
  induction chunks with
  | nil =>
    intro st hz
    simp [zero_fcTL_before_IEND] at hz
  | cons ch rest ih =>
    intro st hz
    unfold zero_fcTL_before_IEND at hz
    by_cases hE : chunk_type ch = tIEND
    · rw [List.takeWhile_cons] at hz
      simp [hE] at hz
    · rw [List.takeWhile_cons] at hz
      rw [if_pos (by simp [hE])] at hz
      simp only [List.mem_cons] at hz
      obtain ⟨c, hc, hzc⟩ := hz
      rcases hc with rfl | hc
      · rw [apng_loop, pstep_zero_fcTL_fails dec st c hzc]
      · cases hs : pstep dec st ch with
        | sfail => rw [apng_loop, hs]
        | sbrk st2 => exact absurd (pstep_sbrk_is_IEND dec st ch st2 hs) hE
        | scont st2 =>
          rw [apng_loop, hs]
          exact ih st2 ⟨c, hc, hzc⟩

/-- C4 (amended): for every input byte stream in which a frame-control
chunk declaring width 0 (or height 0) occurs before the end marker — i.e.
among the chunks the loop processes — the precompose returns a parse
failure, for every decoder: it never substitutes the canvas size and never
produces an animation from such a stream. -/
theorem C4_zero_size_fcTL_is_parse_failure (dec : Decoder) (bytes : List ℕ)
    (hz : zero_fcTL_before_IEND (split_chunks (bytes.drop 8))) :
    apng_load_precompose dec bytes = .pfail := by
  unfold apng_load_precompose
  split_ifs with h1 h2
  · rfl
  · rfl
  · rw [apng_loop_zero_fcTL_none dec _ pinit hz]

/-- C4 witness: a stream whose fcTL declares width 0 right after the IHDR
is rejected as a parse failure. -/
theorem C4_witness : apng_load_precompose dec_none bytesC4w = .pfail :=
  C4_zero_size_fcTL_is_parse_failure dec_none bytesC4w (by decide)

/-- C4 counterexample to the claim as stated: this byte stream contains a
frame-control chunk declaring width 0, yet precompose succeeds and returns
an animation — because the zero-width fcTL sits after the end marker,
where the loop never looks.  The decoder oracle returns the IHDR-declared
dimensions, as any conforming codec does on a valid stream. -/
theorem C4_counterexample :
    (∃ ch ∈ split_chunks (bytesC4cx.drop 8), zero_fcTL_chunk ch) ∧
    apng_load_precompose dec_ihdr bytesC4cx = .anim ⟨1, 1, 100, [100], 1, 1⟩ := by
  decide

theorem finalize_frame_saw_acTL (dec : Decoder) (st : PState) (cur : FrameBuild)
    (st1 : PState) (h : finalize_frame dec st cur = some st1) :
    st1.saw_acTL = st.saw_acTL := by
  unfold finalize_frame at h
  split at h
  · exact absurd h (by simp)
  · split at h
    · exact absurd h (by simp)
    · rw [Option.some.injEq] at h
      subst h
      rfl

theorem finalize_cur_saw_acTL (dec : Decoder) (st : PState) (st1 : PState)
    (h : finalize_cur dec st = some st1) : st1.saw_acTL = st.saw_acTL := by
  unfold finalize_cur at h
  split at h
  · rw [Option.some.injEq] at h
    subst h
    rfl
  · split at h
    · rw [Option.some.injEq] at h
      subst h
      rfl
    · exact finalize_frame_saw_acTL dec st _ st1 h

theorem pstep_saw_acTL (dec : Decoder) (st : PState) (ch : List ℕ) (st1 : PState)
    (hne : chunk_type ch ≠ tacTL)
    (h : pstep dec st ch = .scont st1 ∨ pstep dec st ch = .sbrk st1) :
    st1.saw_acTL = st.saw_acTL := by
  have hfc : ∀ st2, finalize_cur dec st = some st2 → st2.saw_acTL = st.saw_acTL :=
    fun st2 heq => finalize_cur_saw_acTL dec st st2 heq
  have hff : ∀ cur st2, finalize_frame dec st cur = some st2 → st2.saw_acTL = st.saw_acTL :=
    fun cur st2 heq => finalize_frame_saw_acTL dec st cur st2 heq
  simp only [pstep] at h
  rcases h with h | h <;>
    split_ifs at h <;>
    (try split at h) <;>
    (try split at h) <;>
    (try split at h) <;>
    first
      | (injection h with h' <;>
          (subst h'
           first
             | (exact hff _ _ (by assumption))
             | (exact hfc _ (by assumption))
             | simp_all))
      | simp_all

theorem apng_loop_saw_acTL (dec : Decoder) (chunks : List (List ℕ)) :
    ∀ st st1, (∀ ch ∈ chunks, chunk_type ch ≠ tacTL) →
      apng_loop dec st chunks = some st1 → st1.saw_acTL = st.saw_acTL := by
  induction chunks with
  | nil =>
    intro st st1 _ h
    rw [apng_loop] at h
    cases h
    rfl
  | cons ch rest ih =>
    intro st st1 hall h
    rw [apng_loop] at h
    cases hs : pstep dec st ch with
    | sfail => rw [hs] at h; cases h
    | sbrk st2 =>
      rw [hs, Option.some.injEq] at h
      subst h
      exact pstep_saw_acTL dec st ch _ (hall ch (by simp)) (Or.inr hs)
    | scont st2 =>
      rw [hs] at h
      have e2 : st2.saw_acTL = st.saw_acTL :=
        pstep_saw_acTL dec st ch st2 (hall ch (by simp)) (Or.inl hs)
      rw [ih st2 st1 (fun c hc => hall c (by simp [hc])) h, e2]

/-- C5: a well-formed input stream (size and signature fine, chunk loop
completes without a parse failure) in which no animation-control chunk
appears, or in which zero frames are produced, yields the distinct "not
animated" signal — not a parse failure — and the caller then falls back to
static PNG decoding. -/
theorem C5_not_animated_signal (dec : Decoder) (bytes : List ℕ) (st : PState)
    (hlen : 33 ≤ bytes.length) (hsig : bytes.take 8 = png_sig)
    (hloop : apng_loop dec pinit (split_chunks (bytes.drop 8)) = some st)
    (hcase : (∀ ch ∈ split_chunks (bytes.drop 8), chunk_type ch ≠ tacTL) ∨
      st.delays.length = 0) :
    apng_load_precompose dec bytes = .notAnimated ∧
    bg_action (apng_load_precompose dec bytes) = .staticFallback := by
  have hcond : st.saw_acTL = false ∨ st.delays.length = 0 := by
    rcases hcase with hno | hzero
    · exact Or.inl ((apng_loop_saw_acTL dec _ pinit st hno hloop).trans rfl)
    · exact Or.inr hzero
  have hmain : apng_load_precompose dec bytes = .notAnimated := by
    unfold apng_load_precompose
    rw [if_neg (by omega), if_neg (by simp [hsig])]
    simp only [hloop]
    rw [if_pos hcond]
  exact ⟨hmain, by rw [hmain]; rfl⟩

/-- C5 witness: a bare static PNG stream (signature and IHDR only) with a
decoder oracle that is never consulted returns "not animated". -/
theorem C5_witness : apng_load_precompose dec_none bytesC5 = .notAnimated :=
  (C5_not_animated_signal dec_none bytesC5
    ⟨true, ihdr_1x1, 1, 1, false, 0, 0, false, [], none, [], 0⟩
    (by decide) (by decide) (by decide) (Or.inl (by decide))).1

end Trlcd
